import Mathlib

/-!
Verification of the python-eventide client library.

This file embeds, as Lean definitions, the data model and the operations of
the repository (message/metadata model, stream-address parsing, the
serializer, the pending-write buffer flush, and the store-client row
handling), and proves or refutes the frozen claims about them.

Conventions of the embedding:
* Python strings are `String`; stream names that are scanned character by
  character are modelled as `List Char` (called "chars-strings" below).
* Decoded JSON values are modelled by `Jval`: scalars (strings, numbers,
  booleans) are collapsed into `Jval.prim` carrying their textual form,
  JSON objects are ordered association lists (`Jval.obj`), and `null` is
  `Jval.null`.  JSON arrays are not needed by any claim and are omitted.
  Python `dict` values are represented canonically as ordered association
  lists with distinct keys, and dict equality is modelled as list equality.
* Python floats that only travel through records (`time` fields) are
  modelled as `Int`.
* Code that can raise returns `Except String` / `Option`; the error string
  names the Python exception that the source would raise at that point.
-/

/-- Decoded JSON value: `null`, a textual scalar (strings and booleans), an
integer, or an object given as an ordered association list of fields. -/
inductive Jval where
  | null : Jval
  | prim : String → Jval
  | int : Int → Jval
  | obj : List (String × Jval) → Jval

mutual
/-- Python `==` on decoded JSON values (objects compared fieldwise; the
association-list representation is canonical, see the header comment). -/
def jvalBeq : Jval → Jval → Bool
  | Jval.null, Jval.null => true
  | Jval.prim a, Jval.prim b => a == b
  | Jval.int a, Jval.int b => a == b
  | Jval.obj fs, Jval.obj gs => jfieldsBeq fs gs
  | _, _ => false

/-- Python `==` on JSON object field lists. -/
def jfieldsBeq : List (String × Jval) → List (String × Jval) → Bool
  | [], [] => true
  | (k, v) :: fs, (k2, v2) :: gs => k == k2 && jvalBeq v v2 && jfieldsBeq fs gs
  | _, _ => false
end

mutual
theorem jvalBeq_eq : (v w : Jval) → jvalBeq v w = true → v = w
  | Jval.null, Jval.null, _ => rfl
  | Jval.null, Jval.prim _, h => by simp [jvalBeq] at h
  | Jval.null, Jval.int _, h => by simp [jvalBeq] at h
  | Jval.null, Jval.obj _, h => by simp [jvalBeq] at h
  | Jval.prim _, Jval.null, h => by simp [jvalBeq] at h
  | Jval.prim a, Jval.prim b, h => by
      simp [jvalBeq] at h
      simp [h]
  | Jval.prim _, Jval.int _, h => by simp [jvalBeq] at h
  | Jval.prim _, Jval.obj _, h => by simp [jvalBeq] at h
  | Jval.int _, Jval.null, h => by simp [jvalBeq] at h
  | Jval.int _, Jval.prim _, h => by simp [jvalBeq] at h
  | Jval.int a, Jval.int b, h => by
      simp [jvalBeq] at h
      simp [h]
  | Jval.int _, Jval.obj _, h => by simp [jvalBeq] at h
  | Jval.obj _, Jval.null, h => by simp [jvalBeq] at h
  | Jval.obj _, Jval.prim _, h => by simp [jvalBeq] at h
  | Jval.obj _, Jval.int _, h => by simp [jvalBeq] at h
  | Jval.obj fs, Jval.obj gs, h => by
      simp only [jvalBeq] at h
      exact congrArg Jval.obj (jfieldsBeq_eq fs gs h)

theorem jfieldsBeq_eq :
    (fs gs : List (String × Jval)) → jfieldsBeq fs gs = true → fs = gs
  | [], [], _ => rfl
  | [], (_, _) :: _, h => by simp [jfieldsBeq] at h
  | (_, _) :: _, [], h => by simp [jfieldsBeq] at h
  | (k, v) :: fs, (k2, v2) :: gs, h => by
      simp only [jfieldsBeq, Bool.and_eq_true, beq_iff_eq] at h
      obtain ⟨⟨hk, hv⟩, hrest⟩ := h
      have h1 := jvalBeq_eq v v2 hv
      have h2 := jfieldsBeq_eq fs gs hrest
      simp [hk, h1, h2]
end

mutual
theorem jvalBeq_refl : (v : Jval) → jvalBeq v v = true
  | Jval.null => rfl
  | Jval.prim a => by simp [jvalBeq]
  | Jval.int a => by simp [jvalBeq]
  | Jval.obj fs => by
      simp only [jvalBeq]
      exact jfieldsBeq_refl fs

theorem jfieldsBeq_refl : (fs : List (String × Jval)) → jfieldsBeq fs fs = true
  | [] => rfl
  | (k, v) :: fs => by
      simp only [jfieldsBeq, Bool.and_eq_true]
      exact ⟨⟨by simp, jvalBeq_refl v⟩, jfieldsBeq_refl fs⟩
end

theorem jvalBeq_iff (v w : Jval) : jvalBeq v w = true ↔ v = w := by
  constructor
  · exact jvalBeq_eq v w
  · intro h
    subst h
    exact jvalBeq_refl v

theorem jfieldsBeq_iff (fs gs : List (String × Jval)) :
    jfieldsBeq fs gs = true ↔ fs = gs := by
  constructor
  · exact jfieldsBeq_eq fs gs
  · intro h
    subst h
    exact jfieldsBeq_refl fs

/-! ## Metadata (src/eventide/message.py, class Metadata) -/

/-- The ten fields of `eventide.message.Metadata`, all defaulting to `None`
in the source (`f_blank`).  The `time` field is a float in Python and is
modelled as `Int` (only its identity matters to the claims). -/
structure MetadataM where
  stream_name : Option String := none
  position : Option Int := none
  global_position : Option Int := none
  causation_message_stream_name : Option String := none
  causation_message_position : Option Int := none
  causation_message_global_position : Option Int := none
  correlation_stream_name : Option String := none
  reply_stream_name : Option String := none
  schema_version : Option String := none
  time : Option Int := none
deriving DecidableEq

/-- `Metadata.follow`: copies the other metadata's stream_name, position and
global_position into this one's causation fields, and the other's
correlation_stream_name and reply_stream_name verbatim; mutates and returns
self (modelled as returning the updated record). -/
def MetadataM.follow (self other : MetadataM) : MetadataM :=
  { self with
    causation_message_stream_name := other.stream_name
    causation_message_position := other.position
    causation_message_global_position := other.global_position
    correlation_stream_name := other.correlation_stream_name
    reply_stream_name := other.reply_stream_name }

/-- `Metadata.follows`: the five-way conjunction from the source. -/
def MetadataM.follows (self other : MetadataM) : Bool :=
  decide (self.causation_message_stream_name = other.stream_name)
    && decide (self.causation_message_position = other.position)
    && decide (self.causation_message_global_position = other.global_position)
    && decide (self.correlation_stream_name = other.correlation_stream_name)
    && decide (self.reply_stream_name = other.reply_stream_name)

/-! ## The Message model (src/eventide/message.py, class Message)

A `@messagecls`-decorated message is a dataclass whose fields are `id`
(a UUID, modelled as its string form), `metadata` (a `Metadata` instance)
and the declared payload fields.  The payload is modelled as an ordered
association list of field name to decoded JSON value, in dataclass field
order; the message kind (`cls.__name__`) is carried explicitly. -/

structure Msg where
  kind : String
  id : String
  metadata : MetadataM
  payload : List (String × Jval)

/-- `Message.follow`: delegates to `Metadata.follow` on the metadata. -/
def Msg.follow (self other : Msg) : Msg :=
  { self with metadata := self.metadata.follow other.metadata }

/-- `Message.follows`: delegates to `Metadata.follows`. -/
def Msg.follows (self other : Msg) : Bool :=
  self.metadata.follows other.metadata

/-- C4: after `child.follow(parent)`, `child.follows(parent)` is true, and
the child's own `stream_name`, `position` and `global_position` metadata
fields are unchanged; only the three causation fields and the
correlation/reply stream names are written, each copied from the parent
(`schema_version` and `time` are also untouched). -/
theorem c4_follow_establishes_follows (child parent : Msg) :
    (child.follow parent).follows parent = true
      ∧ (child.follow parent).metadata.stream_name = child.metadata.stream_name
      ∧ (child.follow parent).metadata.position = child.metadata.position
      ∧ (child.follow parent).metadata.global_position
          = child.metadata.global_position
      ∧ (child.follow parent).metadata.schema_version
          = child.metadata.schema_version
      ∧ (child.follow parent).metadata.time = child.metadata.time
      ∧ (child.follow parent).metadata.causation_message_stream_name
          = parent.metadata.stream_name
      ∧ (child.follow parent).metadata.causation_message_position
          = parent.metadata.position
      ∧ (child.follow parent).metadata.causation_message_global_position
          = parent.metadata.global_position
      ∧ (child.follow parent).metadata.correlation_stream_name
          = parent.metadata.correlation_stream_name
      ∧ (child.follow parent).metadata.reply_stream_name
          = parent.metadata.reply_stream_name := by
  simp [Msg.follow, Msg.follows, MetadataM.follow, MetadataM.follows]

/-! ## Message equality (src/eventide/message.py, Message.eq / attributes)

`Message.attributes()` is `dataclasses.asdict(self)`: a dict holding EVERY
dataclass field, i.e. `id`, `metadata` (itself rendered as a dict) and the
declared payload fields, in field order. -/

/-- Renders an `Option String` field the way `asdict` leaves it in the
attribute dict (`None` or the string). -/
def optStr : Option String → Jval
  | none => Jval.null
  | some s => Jval.prim s

/-- Renders an `Option Int` field (positions, times) as its JSON value. -/
def optInt : Option Int → Jval
  | none => Jval.null
  | some n => Jval.int n

/-- The dict `dataclasses.asdict` produces for a `Metadata` value, in field
order. -/
def metaFields (m : MetadataM) : List (String × Jval) :=
  [("stream_name", optStr m.stream_name),
   ("position", optInt m.position),
   ("global_position", optInt m.global_position),
   ("causation_message_stream_name", optStr m.causation_message_stream_name),
   ("causation_message_position", optInt m.causation_message_position),
   ("causation_message_global_position",
     optInt m.causation_message_global_position),
   ("correlation_stream_name", optStr m.correlation_stream_name),
   ("reply_stream_name", optStr m.reply_stream_name),
   ("schema_version", optStr m.schema_version),
   ("time", optInt m.time)]

/-- A `Metadata` value as the nested dict `asdict` embeds in the attribute
dict. -/
def metaToJval (m : MetadataM) : Jval :=
  Jval.obj (metaFields m)

/-- `Message.attributes()` = `asdict(self)`: id, metadata (as a nested
dict), then the payload fields. -/
def Msg.attributes (m : Msg) : List (String × Jval) :=
  ("id", Jval.prim m.id) :: ("metadata", metaToJval m.metadata) :: m.payload

/-- Python `dict.get(key)`: the first binding of the key, if any. -/
def pyDictGet : List (String × Jval) → String → Option Jval
  | [], _ => none
  | (k, v) :: rest, key => if k == key then some v else pyDictGet rest key

/-- The loop body of `Message.eq`: for every key/value of the other dict,
`attrs.get(k, not v) != v` fails the comparison.  When the key is missing,
`attrs.get(k, not v)` is the Python boolean `not v`, which is never `==` to
`v` itself (a bool only equals a bool of the same truth value, and `not v`
by construction has the opposite truthiness), so the missing-key branch is
modelled as an immediate mismatch. -/
def attrsAll (attrs : List (String × Jval)) : List (String × Jval) → Bool
  | [] => true
  | (k, v) :: rest =>
    (match pyDictGet attrs k with
      | some v0 => jvalBeq v0 v
      | none => false) && attrsAll attrs rest

/-- `Message.eq`: `isinstance(other, self.__class__)` (same kind), then the
attribute-dict comparison over ALL fields returned by `attributes()`. -/
def msgEq (a b : Msg) : Bool :=
  if a.kind == b.kind then attrsAll a.attributes b.attributes else false

theorem pyDictGet_cons_self (k : String) (v : Jval)
    (rest : List (String × Jval)) : pyDictGet ((k, v) :: rest) k = some v := by
  simp [pyDictGet]

theorem pyDictGet_append_of_not_mem (pre rest : List (String × Jval))
    (k : String) (h : k ∉ pre.map Prod.fst) :
    pyDictGet (pre ++ rest) k = pyDictGet rest k := by
  induction pre with
  | nil => rfl
  | cons x pre ih =>
      obtain ⟨k0, v0⟩ := x
      simp only [List.map_cons, List.mem_cons] at h
      push_neg at h
      simp only [List.cons_append, pyDictGet]
      rw [if_neg (by simpa using fun he => h.1 he.symm)]
      exact ih h.2

/-- The attribute-dict comparison loop succeeds exactly when the compared
suffix equals the other dict, provided keys are distinct and aligned. -/
theorem attrsAll_nodup_iff (suf : List (String × Jval)) :
    ∀ (ys pre : List (String × Jval)),
      (((pre ++ suf).map Prod.fst).Nodup) →
      suf.map Prod.fst = ys.map Prod.fst →
      (attrsAll (pre ++ suf) ys = true ↔ suf = ys) := by
  induction suf with
  | nil =>
      intro ys pre hnd hk
      cases ys with
      | nil => simp [attrsAll]
      | cons y ys' => simp at hk
  | cons x suf ih =>
      intro ys pre hnd hk
      obtain ⟨k, v⟩ := x
      cases ys with
      | nil => simp at hk
      | cons y ys' =>
          obtain ⟨k2, w⟩ := y
          simp only [List.map_cons, List.cons.injEq] at hk
          obtain ⟨hkk, htl⟩ := hk
          subst hkk
          have hknotin : k ∉ pre.map Prod.fst := by
            have hnd2 := hnd
            rw [List.map_append, List.nodup_append] at hnd2
            intro hmem
            exact hnd2.2.2 hmem (by simp)
          have hget : pyDictGet (pre ++ (k, v) :: suf) k = some v := by
            rw [pyDictGet_append_of_not_mem pre _ k hknotin,
              pyDictGet_cons_self]
          have hih := ih ys' (pre ++ [(k, v)])
            (by simpa [List.append_assoc] using hnd) htl
          rw [show (pre ++ [(k, v)]) ++ suf = pre ++ (k, v) :: suf by simp]
            at hih
          simp only [attrsAll, hget, Bool.and_eq_true, hih, jvalBeq_iff,
            List.cons.injEq, Prod.mk.injEq]
          tauto

theorem optStr_inj {x y : Option String} (h : optStr x = optStr y) :
    x = y := by
  cases x <;> cases y <;> simp_all [optStr]

theorem optInt_inj {x y : Option Int} (h : optInt x = optInt y) :
    x = y := by
  cases x <;> cases y <;> simp_all [optInt]

theorem metaToJval_inj {m1 m2 : MetadataM}
    (h : metaToJval m1 = metaToJval m2) : m1 = m2 := by
  obtain ⟨a1, a2, a3, a4, a5, a6, a7, a8, a9, a10⟩ := m1
  obtain ⟨b1, b2, b3, b4, b5, b6, b7, b8, b9, b10⟩ := m2
  simp only [metaToJval, metaFields, Jval.obj.injEq, List.cons.injEq,
    Prod.mk.injEq, true_and, and_true] at h
  obtain ⟨h1, h2, h3, h4, h5, h6, h7, h8, h9, h10⟩ := h
  simp [optStr_inj h1, optInt_inj h2, optInt_inj h3, optStr_inj h4,
    optInt_inj h5, optInt_inj h6, optStr_inj h7, optStr_inj h8,
    optStr_inj h9, optInt_inj h10]

/-- A concrete message kind used as input: a `Withdraw` with one payload
field `amount`, default metadata, id `id-1`. -/
def mW1 : Msg :=
  { kind := "Withdraw", id := "id-1", metadata := {},
    payload := [("amount", Jval.int 5)] }

/-- The same kind and payload and metadata as `mW1` but a different id. -/
def mW2 : Msg :=
  { kind := "Withdraw", id := "id-2", metadata := {},
    payload := [("amount", Jval.int 5)] }

/-- C3 counterexample: two messages of the same kind with identical payload
fields (and identical metadata) but different ids compare UNEQUAL under
`Message.eq`, because `attributes()` is `asdict(self)` and therefore
includes `id` (and `metadata`) in the comparison.  The claim says they
should be equal. -/
theorem c3_counterexample :
    mW1.kind = mW2.kind ∧ mW1.payload = mW2.payload
      ∧ mW1.metadata = mW2.metadata ∧ mW1.id ≠ mW2.id
      ∧ msgEq mW1 mW2 = false := by
  refine ⟨rfl, rfl, rfl, by decide, ?_⟩
  rfl

/-- C3 amended: `Message.eq` compares the full attribute dict, so two
messages are equal iff they have the same kind AND equal id, metadata and
payload fields (id and metadata are NOT excluded).  The hypotheses say the
two messages declare the same payload field names (true for two instances
of one dataclass) and that the field names are distinct (true for any
dataclass). -/
theorem c3_eq_includes_id_and_metadata (a b : Msg)
    (hkeys : a.payload.map Prod.fst = b.payload.map Prod.fst)
    (hnodup : (a.attributes.map Prod.fst).Nodup) :
    (msgEq a b = true ↔
      a.kind = b.kind ∧ a.id = b.id ∧ a.metadata = b.metadata
        ∧ a.payload = b.payload) := by
  unfold msgEq
  by_cases hk : a.kind = b.kind
  · have hbeq : (a.kind == b.kind) = true := by simp [hk]
    rw [hbeq]
    simp only [if_true]
    have hmain := attrsAll_nodup_iff a.attributes b.attributes []
      (by simpa using hnodup) (by simp [Msg.attributes, hkeys])
    simp only [List.nil_append] at hmain
    rw [hmain]
    constructor
    · intro h
      simp only [Msg.attributes, List.cons.injEq, Prod.mk.injEq,
        true_and, Jval.prim.injEq] at h
      obtain ⟨hid, hmeta, hpay⟩ := h
      exact ⟨hk, hid, metaToJval_inj hmeta, hpay⟩
    · rintro ⟨-, hid, hmeta, hpay⟩
      simp [Msg.attributes, hid, hmeta, hpay]
  · have hbeq : (a.kind == b.kind) = false := by simp [hk]
    rw [hbeq]
    simp [hk]

/-- C3 amended-claim witness at a concrete input: a message equals itself. -/
theorem c3_eq_includes_id_and_metadata_witness : msgEq mW1 mW1 = true :=
  (c3_eq_includes_id_and_metadata mW1 mW1 rfl (by decide)).mpr
    ⟨rfl, rfl, rfl, rfl⟩

/-! ## Stream addresses (src/eventide/message_store.py MessageStore.category,
is_category, stream_id, stream_cardinal_id; src/eventide/message.py
MessageData.category, is_category, stream_id, cardinal_id, command)

`DELIM` is the hyphen and `CARD_DELIM` the plus sign.  Stream names are
modelled as `List Char`.  `pySplit d s` is Python `s.split(d)`;
`pySplit1 d s` is `s.split(d, 1)`; `pyContains d s` is `d in s`. -/

/-- Python `d in s` for a single character. -/
def pyContains (d : Char) (s : List Char) : Bool :=
  s.any (fun c => c == d)

/-- Python `s.split(d)` for a one-character separator: always returns at
least one (possibly empty) piece. -/
def pySplit (d : Char) : List Char → List (List Char)
  | [] => [[]]
  | c :: rest =>
    if c == d then [] :: pySplit d rest
    else
      match pySplit d rest with
      | [] => [[c]]
      | t :: ts => (c :: t) :: ts

/-- Helper: the piece before the first `d` and, when `d` occurs, the
remainder after it. -/
def pyBreak (d : Char) : List Char → List Char × Option (List Char)
  | [] => ([], none)
  | c :: rest =>
    if c == d then ([], some rest)
    else
      let p := pyBreak d rest
      (c :: p.1, p.2)

/-- Python `s.split(d, 1)`. -/
def pySplit1 (d : Char) (s : List Char) : List (List Char) :=
  match pyBreak d s with
  | (b, none) => [b]
  | (b, some a) => [b, a]

/-- Python list indexing `l[i]`: raises `IndexError` when out of range. -/
def pyIndex (l : List α) (i : Nat) : Except String α :=
  match l[i]? with
  | some a => Except.ok a
  | none => Except.error "IndexError: list index out of range"

/-- `MessageStore.category` / `MessageData.category`:
`stream.split(DELIM)[0]` (total form; `pySplit` never returns `[]`). -/
def Addr.category (s : List Char) : List Char :=
  (pySplit '-' s).headD []

/-- `MessageStore.is_category` / `MessageData.is_category`:
`DELIM not in stream`. -/
def Addr.is_category (s : List Char) : Bool :=
  !pyContains '-' s

/-- `MessageStore.stream_id` / `MessageData.stream_id`: `None` when no
delimiter, else `stream.split(DELIM, 1)[1]`. -/
def Addr.stream_id (s : List Char) : Option (List Char) :=
  if pyContains '-' s then some ((pySplit1 '-' s).getD 1 []) else none

/-- `MessageStore.stream_cardinal_id` / `MessageData.cardinal_id`: `None`
when no delimiter, else `stream.split(DELIM, 1)[1].split(CARD_DELIM)[0]`. -/
def Addr.stream_cardinal_id (s : List Char) : Option (List Char) :=
  if pyContains '-' s then
    some ((pySplit '+' ((pySplit1 '-' s).getD 1 [])).headD [])
  else none

/-- `MessageData.command`: `None` when the category has no colon, else
`category.split(COLON, 1)[1].split(DELIM)[0]`. -/
def Addr.command (s : List Char) : Option (List Char) :=
  if pyContains ':' (Addr.category s) then
    some ((pySplit '-' ((pySplit1 ':' (Addr.category s)).getD 1 [])).headD [])
  else none

/-- `category` with Python indexing made explicit. -/
def Addr.categoryE (s : List Char) : Except String (List Char) :=
  pyIndex (pySplit '-' s) 0

/-- `is_category` never indexes, so it is directly total. -/
def Addr.is_categoryE (s : List Char) : Bool :=
  !pyContains '-' s

/-- `stream_id` with Python indexing made explicit. -/
def Addr.stream_idE (s : List Char) : Except String (Option (List Char)) :=
  if pyContains '-' s then
    match pyIndex (pySplit1 '-' s) 1 with
    | Except.error e => Except.error e
    | Except.ok a => Except.ok (some a)
  else Except.ok none

/-- `stream_cardinal_id` / `cardinal_id` with Python indexing explicit. -/
def Addr.stream_cardinal_idE (s : List Char) :
    Except String (Option (List Char)) :=
  if pyContains '-' s then
    match pyIndex (pySplit1 '-' s) 1 with
    | Except.error e => Except.error e
    | Except.ok a =>
      match pyIndex (pySplit '+' a) 0 with
      | Except.error e => Except.error e
      | Except.ok h => Except.ok (some h)
  else Except.ok none

/-- `command` with Python indexing explicit (the category itself is an
indexing operation). -/
def Addr.commandE (s : List Char) : Except String (Option (List Char)) :=
  match pyIndex (pySplit '-' s) 0 with
  | Except.error e => Except.error e
  | Except.ok cat =>
    if pyContains ':' cat then
      match pyIndex (pySplit1 ':' cat) 1 with
      | Except.error e => Except.error e
      | Except.ok x =>
        match pyIndex (pySplit '-' x) 0 with
        | Except.error e => Except.error e
        | Except.ok h => Except.ok (some h)
    else Except.ok none

theorem pySplit_ne_nil (d : Char) (s : List Char) : pySplit d s ≠ [] := by
  cases s with
  | nil => simp [pySplit]
  | cons c rest =>
      simp only [pySplit]
      by_cases h : c == d
      · simp [h]
      · simp only [h, if_false, Bool.false_eq_true]
        cases pySplit d rest <;> simp

theorem pySplit_headD (d : Char) (s : List Char) :
    (pySplit d s).headD [] = (pyBreak d s).1 := by
  induction s with
  | nil => rfl
  | cons c rest ih =>
      simp only [pySplit, pyBreak]
      by_cases h : c == d
      · simp [h]
      · simp only [h, if_false, Bool.false_eq_true]
        cases hs : pySplit d rest with
        | nil => exact absurd hs (pySplit_ne_nil d rest)
        | cons t ts =>
            rw [hs] at ih
            simp at ih
            simp [ih]

theorem pyBreak_isSome (d : Char) (s : List Char) :
    (pyBreak d s).2.isSome = pyContains d s := by
  induction s with
  | nil => rfl
  | cons c rest ih =>
      simp only [pyBreak, pyContains, List.any_cons]
      by_cases h : c == d
      · simp [h]
      · simp only [h, if_false, Bool.false_eq_true, Bool.false_or]
        exact ih

theorem pyBreak_recompose (d : Char) (s : List Char) :
    (match (pyBreak d s).2 with
      | some a => (pyBreak d s).1 ++ d :: a
      | none => (pyBreak d s).1) = s := by
  induction s with
  | nil => rfl
  | cons c rest ih =>
      simp only [pyBreak]
      by_cases h : c == d
      · simp only [h, if_true]
        simp only [beq_iff_eq] at h
        simp [h]
      · simp only [h, if_false, Bool.false_eq_true]
        cases hb : (pyBreak d rest).2 with
        | none =>
            rw [hb] at ih
            simp only [hb]
            simpa using ih
        | some a =>
            rw [hb] at ih
            simp only [hb]
            simpa using ih

theorem pySplit1_of_contains (d : Char) (s : List Char)
    (h : pyContains d s = true) :
    ∃ a, (pyBreak d s).2 = some a
      ∧ pySplit1 d s = [(pyBreak d s).1, a] := by
  have hb := pyBreak_isSome d s
  rw [h] at hb
  obtain ⟨a, ha⟩ := Option.isSome_iff_exists.mp hb
  refine ⟨a, ha, ?_⟩
  unfold pySplit1
  rcases hpb : pyBreak d s with ⟨b, o⟩
  rw [hpb] at ha
  simp at ha
  simp [ha]

theorem pySplit1_of_not_contains (d : Char) (s : List Char)
    (h : pyContains d s = false) :
    pySplit1 d s = [(pyBreak d s).1] := by
  have hb := pyBreak_isSome d s
  rw [h] at hb
  unfold pySplit1
  rcases hpb : pyBreak d s with ⟨b, o⟩
  rw [hpb] at hb
  cases o with
  | none => rfl
  | some a => simp at hb

theorem pyIndex_zero_headD (l : List (List Char)) (h : l ≠ []) :
    pyIndex l 0 = Except.ok (l.headD []) := by
  cases l with
  | nil => exact absurd rfl h
  | cons a t => simp [pyIndex]

theorem pyIndex_pair_one (b a : List Char) :
    pyIndex [b, a] 1 = Except.ok a := by
  simp [pyIndex]

/-- C5: for every stream name, composing the parsed parts reproduces the
input byte-for-byte: when the name contains the separator,
`category ++ SEP ++ stream_id` equals the name; when it does not,
`category` equals the whole name (and `stream_id` is absent exactly when
the separator is absent). -/
theorem c5_parse_compose (s : List Char) :
    (match Addr.stream_id s with
      | some t => Addr.category s ++ '-' :: t
      | none => Addr.category s) = s
      ∧ (Addr.stream_id s).isSome = pyContains '-' s := by
  have hrec := pyBreak_recompose '-' s
  by_cases h : pyContains '-' s
  · obtain ⟨a, ha, hs1⟩ := pySplit1_of_contains '-' s h
    rw [ha] at hrec
    simp only [Addr.stream_id, Addr.category, h, if_true, hs1,
      pySplit_headD]
    simpa using hrec
  · have h' : pyContains '-' s = false := by simpa using h
    have hb := pyBreak_isSome '-' s
    rw [h'] at hb
    rcases hob : (pyBreak '-' s).2 with _ | a
    · rw [hob] at hrec
      simp only [Addr.stream_id, Addr.category, h', if_false,
        Bool.false_eq_true, pySplit_headD]
      simpa using hrec
    · rw [hob] at hb
      simp at hb

/-- C6: none of the stream-address operations can raise: each Python list
indexing they perform is in range for every input string (empty strings,
delimiter-only strings and delimiter-initial strings included), so the
explicit-indexing versions always return `ok` of the total values. -/
theorem c6_address_ops_total (s : List Char) :
    Addr.categoryE s = Except.ok (Addr.category s)
      ∧ Addr.stream_idE s = Except.ok (Addr.stream_id s)
      ∧ Addr.stream_cardinal_idE s = Except.ok (Addr.stream_cardinal_id s)
      ∧ Addr.commandE s = Except.ok (Addr.command s)
      ∧ Addr.is_categoryE s = Addr.is_category s := by
  have hcat : Addr.categoryE s = Except.ok (Addr.category s) :=
    pyIndex_zero_headD _ (pySplit_ne_nil '-' s)
  have hcat0 : pyIndex (pySplit '-' s) 0 = Except.ok (Addr.category s) :=
    hcat
  refine ⟨hcat, ?_, ?_, ?_, rfl⟩
  · by_cases h : pyContains '-' s
    · obtain ⟨a, _, hs1⟩ := pySplit1_of_contains '-' s h
      simp [Addr.stream_idE, Addr.stream_id, h, hs1, pyIndex_pair_one]
    · simp [Addr.stream_idE, Addr.stream_id, h]
  · by_cases h : pyContains '-' s
    · obtain ⟨a, _, hs1⟩ := pySplit1_of_contains '-' s h
      have h0 := pyIndex_zero_headD (pySplit '+' a) (pySplit_ne_nil '+' a)
      simp [Addr.stream_cardinal_idE, Addr.stream_cardinal_id, h, hs1,
        pyIndex_pair_one, h0]
    · simp [Addr.stream_cardinal_idE, Addr.stream_cardinal_id, h]
  · simp only [Addr.commandE, Addr.command, hcat0]
    by_cases h2 : pyContains ':' (Addr.category s)
    · obtain ⟨x, _, hs1x⟩ := pySplit1_of_contains ':' (Addr.category s) h2
      have h0 := pyIndex_zero_headD (pySplit '-' x) (pySplit_ne_nil '-' x)
      simp [h2, hs1x, pyIndex_pair_one, h0]
    · simp [h2]

/-! ## MessageData rows (src/eventide/message.py, class MessageData)

`MessageData` carries the decoded row: `data` and `metadata` are decoded
JSON dicts, modelled as association lists. -/

structure MessageDataM where
  type : String
  stream_name : String
  data : List (String × Jval)
  metadata : List (String × Jval)
  id : String
  position : Int
  global_position : Int
  time : Int

/-! ## Deserialization (src/eventide/message.py, Message.from_messagedata)

A target message class is its declared name (`cls.__name__`) together with
the declared metadata contract
(`cls.__dataclass_fields__['metadata'].metadata`, the field-name set the
`@messagecls` decorator stored).  A raised `ValueError` is the spec's
`SchemaMismatch`; returning `Except.error` models that no (partial) object
is returned. -/

structure MsgClass where
  name : String
  metaFieldNames : List String

/-- The constructed instance: `cls(**data.data)` with `id` overwritten from
the row and `metadata` rebuilt from the kept fields. -/
structure DeserializedMsg where
  kind : String
  id : String
  metaObj : List (String × Jval)
  payload : List (String × Jval)

/-- The metadata loop of `from_messagedata`: keep declared keys; an
undeclared key raises in strict mode and is skipped otherwise. -/
def filterMeta (strict : Bool) (declared : List String) :
    List (String × Jval) → Except String (List (String × Jval))
  | [] => Except.ok []
  | (k, v) :: rest =>
    if declared.contains k then
      match filterMeta strict declared rest with
      | Except.error e => Except.error e
      | Except.ok r => Except.ok ((k, v) :: r)
    else if strict then
      Except.error ("ValueError: undefined metadata field name " ++ k)
    else filterMeta strict declared rest

/-- `Message.from_messagedata`: strict type-name check, the metadata loop,
then construction of the instance. -/
def from_messagedata (cls : MsgClass) (d : MessageDataM) (strict : Bool) :
    Except String DeserializedMsg :=
  if strict && !(d.type == cls.name) then
    Except.error
      ("ValueError: invalid class name, does not match type " ++ d.type)
  else
    match filterMeta strict cls.metaFieldNames d.metadata with
    | Except.error e => Except.error e
    | Except.ok kept =>
      Except.ok
        { kind := cls.name, id := d.id, metaObj := kept, payload := d.data }

theorem filterMeta_false_ok (declared : List String)
    (l : List (String × Jval)) :
    filterMeta false declared l =
      Except.ok (l.filter (fun kv => declared.contains kv.1)) := by
  induction l with
  | nil => rfl
  | cons x rest ih =>
      obtain ⟨k, v⟩ := x
      by_cases hmem : k ∈ declared <;>
        simp [filterMeta, ih, List.filter_cons, hmem]

theorem filterMeta_strict_err_iff (declared : List String)
    (l : List (String × Jval)) :
    (∃ e, filterMeta true declared l = Except.error e) ↔
      ∃ k ∈ l.map Prod.fst, declared.contains k = false := by
  induction l with
  | nil => simp [filterMeta]
  | cons x rest ih =>
      obtain ⟨k, v⟩ := x
      by_cases hc : declared.contains k
      · cases hr : filterMeta true declared rest with
        | error e =>
            have hex : ∃ e2, filterMeta true declared rest = Except.error e2 :=
              ⟨e, hr⟩
            rw [ih] at hex
            obtain ⟨k2, hk2, hk2f⟩ := hex
            simp only [filterMeta, hc, if_true, hr, List.map_cons,
              List.mem_cons]
            constructor
            · intro _
              exact ⟨k2, Or.inr hk2, hk2f⟩
            · intro _
              exact ⟨e, rfl⟩
        | ok r =>
            have hnoex : ¬ ∃ e2, filterMeta true declared rest =
                Except.error e2 := by
              rw [hr]
              rintro ⟨e2, he2⟩
              cases he2
            rw [ih] at hnoex
            simp only [filterMeta, hc, if_true, hr, List.map_cons,
              List.mem_cons]
            constructor
            · rintro ⟨e, he⟩
              cases he
            · rintro ⟨k2, hk2, hk2f⟩
              rcases hk2 with hk2 | hk2
              · subst hk2
                exact absurd (by simpa using hc) (by simpa using hk2f)
              · exact absurd ⟨k2, hk2, hk2f⟩ hnoex
      · simp only [filterMeta, hc, if_false, Bool.false_eq_true, if_true,
          List.map_cons, List.mem_cons]
        constructor
        · intro _
          exact ⟨k, Or.inl rfl, by simpa using hc⟩
        · intro _
          exact ⟨_, rfl⟩

/-- C7: strict deserialization fails (raising the `SchemaMismatch`-class
`ValueError`, returning no object) exactly when the stored type name
differs from the target class name or some stored metadata key is not in
the declared metadata contract; non-strict deserialization always succeeds,
silently dropping undeclared metadata keys and tolerating a type mismatch,
and builds the instance from the row (payload from `data.data`, id from the
row id, kind from the target class). -/
theorem c7_strict_deserialize (cls : MsgClass) (d : MessageDataM) :
    ((∃ e, from_messagedata cls d true = Except.error e) ↔
        (d.type ≠ cls.name
          ∨ ∃ k ∈ d.metadata.map Prod.fst,
              cls.metaFieldNames.contains k = false))
      ∧ from_messagedata cls d false =
          Except.ok
            { kind := cls.name, id := d.id,
              metaObj := d.metadata.filter
                (fun kv => cls.metaFieldNames.contains kv.1),
              payload := d.data } := by
  constructor
  · by_cases ht : d.type = cls.name
    · have hcond : (true && !(d.type == cls.name)) = false := by simp [ht]
      rw [from_messagedata, hcond]
      simp only [Bool.false_eq_true, if_false]
      cases hr : filterMeta true cls.metaFieldNames d.metadata with
      | error e =>
          have hex := (filterMeta_strict_err_iff cls.metaFieldNames
            d.metadata).mp ⟨e, hr⟩
          constructor
          · intro _
            exact Or.inr hex
          · intro _
            exact ⟨e, rfl⟩
      | ok r =>
          have hnoex := (filterMeta_strict_err_iff cls.metaFieldNames
            d.metadata).not.mp (by rw [hr]; rintro ⟨e2, he2⟩; cases he2)
          constructor
          · rintro ⟨e, he⟩
            cases he
          · rintro (hl | hr2)
            · exact absurd ht hl
            · exact absurd hr2 hnoex
    · have hcond : (true && !(d.type == cls.name)) = true := by simp [ht]
      rw [from_messagedata, hcond]
      simp only [if_true]
      constructor
      · intro _
        exact Or.inl ht
      · intro _
        exact ⟨_, rfl⟩
  · have hcond : (false && !(d.type == cls.name)) = false := by simp
    rw [from_messagedata, hcond]
    simp [filterMeta_false_ok]

/-! ## Serialization (src/eventide/message.py, Message.serialize) -/

/-- Modelled from the spec: `dense_dict` is imported from `eventide.utils`
in the source but is absent from `src/eventide/utils.py`; per spec
sections 4.3 and 6 it strips fields whose value is absent/null from a
mapping, recursively including nested mappings. -/
def dense_dict : List (String × Jval) → List (String × Jval)
  | [] => []
  | (k, v) :: rest =>
    match v with
    | Jval.null => dense_dict rest
    | Jval.obj fs => (k, Jval.obj (dense_dict fs)) :: dense_dict rest
    | v => (k, v) :: dense_dict rest

/-- What `dense_dict` does to one kept value. -/
def denseOf : Jval → Jval
  | Jval.obj fs => Jval.obj (dense_dict fs)
  | v => v

/-- No field of the mapping holds null, at any nesting depth. -/
def noNulls : List (String × Jval) → Bool
  | [] => true
  | (_, v) :: rest =>
    (match v with
      | Jval.null => false
      | Jval.obj fs => noNulls fs
      | _ => true) && noNulls rest

theorem noNulls_dense_dict :
    (fs : List (String × Jval)) → noNulls (dense_dict fs) = true
  | [] => by simp [dense_dict, noNulls]
  | (k, v) :: rest => by
      cases v with
      | null => simpa [dense_dict] using noNulls_dense_dict rest
      | prim s => simp [dense_dict, noNulls, noNulls_dense_dict rest]
      | int n => simp [dense_dict, noNulls, noNulls_dense_dict rest]
      | obj gs =>
          simp [dense_dict, noNulls, noNulls_dense_dict rest,
            noNulls_dense_dict gs]

theorem dense_dict_preserves (fs : List (String × Jval)) (k : String)
    (v : Jval) (hmem : (k, v) ∈ fs) (hv : v ≠ Jval.null) :
    (k, denseOf v) ∈ dense_dict fs := by
  induction fs with
  | nil => cases hmem
  | cons x rest ih =>
      obtain ⟨k0, v0⟩ := x
      rcases List.mem_cons.mp hmem with heq | hmem2
      · cases heq
        cases v with
        | null => exact absurd rfl hv
        | prim s => simp [dense_dict, denseOf]
        | int n => simp [dense_dict, denseOf]
        | obj gs => simp [dense_dict, denseOf]
      · cases v0 with
        | null => simpa [dense_dict] using ih hmem2
        | prim s =>
            simp only [dense_dict]
            exact List.mem_cons_of_mem _ (ih hmem2)
        | int n =>
            simp only [dense_dict]
            exact List.mem_cons_of_mem _ (ih hmem2)
        | obj gs =>
            simp only [dense_dict]
            exact List.mem_cons_of_mem _ (ih hmem2)

/-- The wire tuple (src/eventide/message.py, class SerializedMessage); the
JSON text columns carry the encoded dicts, modelled as the decoded dicts
themselves since the codec (`jdumps`) is an opaque encode/decode pair per
spec section 1. -/
structure SerializedMessageM where
  id : String
  stream_name : String
  type : String
  data : List (String × Jval)
  metadata : List (String × Jval)
  expected_version : Option Int

/-- `Message.serialize`: take `attributes()`, split out `metadata` and
densify it with `dense_dict`, drop `id` into its own column, keep the
remaining payload fields as the data dict, and assemble the wire tuple. -/
def Msg.serialize (m : Msg) (stream_name : String)
    (expected_version : Option Int) : SerializedMessageM :=
  { id := m.id, stream_name := stream_name, type := m.kind,
    data := m.payload, metadata := dense_dict (metaFields m.metadata),
    expected_version := expected_version }

/-- C8: `serialize` encodes the metadata densely: the metadata dict it
emits has no null-valued field at any depth, while every non-null metadata
field survives (densified); the data payload is passed through unchanged
(nulls preserved), and the wire tuple carries the message id, the given
stream name, the declared type name, and the given expected version. -/
theorem c8_serialize_dense (m : Msg) (stream : String) (ev : Option Int) :
    (m.serialize stream ev).id = m.id
      ∧ (m.serialize stream ev).stream_name = stream
      ∧ (m.serialize stream ev).type = m.kind
      ∧ (m.serialize stream ev).data = m.payload
      ∧ (m.serialize stream ev).metadata = dense_dict (metaFields m.metadata)
      ∧ (m.serialize stream ev).expected_version = ev
      ∧ noNulls (m.serialize stream ev).metadata = true
      ∧ (∀ k v, (k, v) ∈ metaFields m.metadata → v ≠ Jval.null →
          (k, denseOf v) ∈ (m.serialize stream ev).metadata) := by
  refine ⟨rfl, rfl, rfl, rfl, rfl, rfl,
    noNulls_dense_dict (metaFields m.metadata), ?_⟩
  intro k v hmem hv
  exact dense_dict_preserves (metaFields m.metadata) k v hmem hv

/-- A concrete message for the C8 witness: one non-null metadata field and
a null-valued data payload field. -/
def mSer : Msg :=
  { kind := "Deposit", id := "id-9",
    metadata := { stream_name := some "acct-1" },
    payload := [("note", Jval.null)] }

/-- C8 witness at a concrete input: the non-null metadata field survives
densification, the emitted metadata has no nulls, and the null-valued data
payload field is preserved untouched. -/
theorem c8_serialize_dense_witness :
    ("stream_name", Jval.prim "acct-1") ∈ (mSer.serialize "s-1" none).metadata
      ∧ noNulls (mSer.serialize "s-1" none).metadata = true
      ∧ (mSer.serialize "s-1" none).data = [("note", Jval.null)] := by
  have h := c8_serialize_dense mSer "s-1" none
  refine ⟨?_, h.2.2.2.2.2.2.1, h.2.2.2.1⟩
  have hp := h.2.2.2.2.2.2.2 "stream_name" (Jval.prim "acct-1")
    (by simp [mSer, metaFields, optStr]) (by simp)
  simpa [denseOf] using hp

/-! ## Store-client row handling (src/eventide/messagedb.py)

`fetchrow` returns a row or no row; a row is modelled by `RowM` with the
JSON columns already decoded (`jloads` is an opaque codec per spec
section 1). -/

structure RowM where
  type : String
  stream_name : String
  data : List (String × Jval)
  metadata : List (String × Jval)
  id : String
  position : Int
  global_position : Int
  time : Int

/-- `MessageData.from_record` on an actual row: `dict(record)` plus the
decoding of the two JSON columns. -/
def MessageDataM.from_record (r : RowM) : MessageDataM :=
  { type := r.type, stream_name := r.stream_name, data := r.data,
    metadata := r.metadata, id := r.id, position := r.position,
    global_position := r.global_position, time := r.time }

/-- `MessageDB.get_last_stream_message`: `if not res or len(res) == 0:
return None` before `from_record(res[0])` — absent or empty results give
`None`.  The argument is the fetched record as a list of columns, the
first column holding the row. -/
def MessageDB.get_last_stream_message (res : Option (List RowM)) :
    Option MessageDataM :=
  match res with
  | none => none
  | some [] => none
  | some (c :: _) => some (MessageDataM.from_record c)

/-- `MessageDB.get_last_message`: NO absent-guard in the source — it calls
`MessageData.from_record(res)` even when `fetchrow` returned no row, and
`dict(None)` raises `TypeError` (surfaced as `MessageDBError` by the
`connection` context manager). -/
def MessageDB.get_last_message (res : Option RowM) :
    Except String MessageDataM :=
  match res with
  | none => Except.error "TypeError: NoneType object is not iterable"
  | some r => Except.ok (MessageDataM.from_record r)

/-- A concrete stored row. -/
def exRow : RowM :=
  { type := "Deposit", stream_name := "acct-1",
    data := [("amount", Jval.int 5)], metadata := [], id := "row-1",
    position := 0, global_position := 7, time := 100 }

/-- C9 (code bug): on an empty stream, `get_last_stream_message` returns
absent as claimed, but on an empty store `get_last_message` raises
(`dict(None)`) instead of returning absent; when a row exists both return
it as MessageData. -/
theorem c9_get_last_message_empty_store :
    MessageDB.get_last_message none =
        Except.error "TypeError: NoneType object is not iterable"
      ∧ MessageDB.get_last_stream_message none = none
      ∧ MessageDB.get_last_stream_message (some []) = none
      ∧ MessageDB.get_last_message (some exRow) =
          Except.ok (MessageDataM.from_record exRow)
      ∧ MessageDB.get_last_stream_message (some [exRow]) =
          some (MessageDataM.from_record exRow) :=
  ⟨rfl, rfl, rfl, rfl, rfl⟩

/-! ## MessageData equality and ordering (src/eventide/message.py,
MessageData.eq / gt / ge) -/

/-- `MessageData.eq`: compares stream_name, type, data and metadata only. -/
def MessageDataM.beq (a b : MessageDataM) : Bool :=
  a.stream_name == b.stream_name && a.type == b.type
    && jfieldsBeq a.data b.data && jfieldsBeq a.metadata b.metadata

/-- `MessageData.gt`: strictly by global_position. -/
def MessageDataM.gt (a b : MessageDataM) : Bool :=
  decide (a.global_position > b.global_position)

/-- `MessageData.ge`: by global_position. -/
def MessageDataM.ge (a b : MessageDataM) : Bool :=
  decide (a.global_position ≥ b.global_position)

/-- A stored row value for the C10 concrete part. -/
def mdA : MessageDataM :=
  { type := "Deposit", stream_name := "acct-1",
    data := [("amount", Jval.int 5)], metadata := [], id := "row-1",
    position := 1, global_position := 10, time := 100 }

/-- Same stream_name/type/data/metadata as `mdA` but different id,
position, global_position and time. -/
def mdB : MessageDataM :=
  { type := "Deposit", stream_name := "acct-1",
    data := [("amount", Jval.int 5)], metadata := [], id := "row-2",
    position := 7, global_position := 3, time := 999 }

/-- C10: MessageData equality holds iff stream_name, type, data and
metadata agree (id, position, global_position, time do not participate),
while the order comparisons are decided by global_position alone; the
concrete pair `mdA`/`mdB` compares equal yet `mdA` is strictly greater. -/
theorem c10_messagedata_eq_and_order :
    (∀ a b : MessageDataM,
        (MessageDataM.beq a b = true ↔
          (a.stream_name = b.stream_name ∧ a.type = b.type
            ∧ a.data = b.data ∧ a.metadata = b.metadata))
        ∧ (MessageDataM.gt a b = true ↔
            b.global_position < a.global_position)
        ∧ (MessageDataM.ge a b = true ↔
            b.global_position ≤ a.global_position))
      ∧ MessageDataM.beq mdA mdB = true
      ∧ mdA.id ≠ mdB.id
      ∧ mdA.global_position ≠ mdB.global_position
      ∧ MessageDataM.gt mdA mdB = true := by
  refine ⟨?_, ?_, by simp [mdA, mdB], by simp [mdA, mdB], ?_⟩
  · intro a b
    refine ⟨?_, ?_, ?_⟩
    · simp [MessageDataM.beq, Bool.and_eq_true, beq_iff_eq, jfieldsBeq_iff,
        and_assoc]
    · simp [MessageDataM.gt]
    · simp [MessageDataM.ge]
  · simp [MessageDataM.beq, mdA, mdB, jfieldsBeq_refl]
  · simp [MessageDataM.gt, mdA, mdB]

/-! ## The pending-write buffer flush (src/eventide/messagedb.py,
MessageDB.queue_message / write_pending_messages)

`queue_message` enqueues `message.serialize(stream_name)`, so the buffer
holds `SerializedMessageM` values; a flush drains the queue in one
snapshot, modelled as the drained list in enqueue order. -/

/-- First-seen-order key deduplication, as a Python dict built by
`cytoolz.groupby` keeps keys in first-encounter order. -/
def firstSeen : List String → List String
  | [] => []
  | k :: rest => k :: firstSeen (rest.filter (fun x => !(x == k)))
termination_by l => l.length
decreasing_by
  simp only [List.length_cons]
  exact Nat.lt_succ_of_le (List.length_filter_le _ _)

/-- `cytoolz.groupby(attrgetter('type'), pending)`: keys in first-seen
order, each group keeping enqueue order. -/
def groupbyType (l : List SerializedMessageM) :
    List (String × List SerializedMessageM) :=
  (firstSeen (l.map (fun m => m.type))).map
    (fun k => (k, l.filter (fun m => m.type == k)))

/-- `cytoolz.partition_all(n, items)`: chunks of at most `n` in order.
cytoolz requires `n ≥ 1`; the model clamps `n` to 1, which is never
reached from the flush code for a positive buffer capacity. -/
def partitionAll (n : Nat) : List α → List (List α)
  | [] => []
  | a :: l => (a :: l).take (max 1 n) :: partitionAll n ((a :: l).drop (max 1 n))
termination_by l => l.length
decreasing_by
  simp only [List.length_drop, List.length_cons]
  omega

/-- `math.ceil(maxsize / 4.0)` for a natural `maxsize`. -/
def ceilDiv4 (n : Nat) : Nat := (n + 3) / 4

/-- Python tuple unpacking `idx, bundle = chunk`: succeeds only when the
chunk holds exactly two elements. -/
def unpack2 : List α → Except String (α × α)
  | [a, b] => Except.ok (a, b)
  | _ => Except.error "ValueError: cannot unpack partition into idx, bundle"

/-- The inner loop of `write_pending_messages` exactly as written:
`for idx, bundle in partition_all(split_n, items)` unpacks each CHUNK into
`(idx, bundle)`, which raises ValueError unless the chunk has exactly two
messages; when it does have two, `idx` is a six-field SerializedMessage
namedtuple and the log-label interpolation `write_pending_messages-%d`
with `idx` as the format argument raises TypeError — both before any
connection is acquired or any write attempted. -/
def processChunksCode (chunks : List (List SerializedMessageM))
    (total : Nat) : Except String Nat :=
  match chunks with
  | [] => Except.ok total
  | c :: _ =>
    match unpack2 c with
    | Except.error e => Except.error e
    | Except.ok _ =>
      Except.error
        "TypeError: not all arguments converted during string formatting"

/-- The per-group loop of `write_pending_messages` as written. -/
def processGroupsCode (split_n : Nat)
    (groups : List (String × List SerializedMessageM)) (total : Nat) :
    Except String Nat :=
  match groups with
  | [] => Except.ok total
  | (_, items) :: rest =>
    match processChunksCode (partitionAll split_n items) total with
    | Except.error e => Except.error e
    | Except.ok t => processGroupsCode split_n rest t

/-- `MessageDB.write_pending_messages` as written: an empty queue returns
0; otherwise the snapshot is grouped by type and each group partitioned
into chunks of `ceil(max_pending / 4)` messages, and the chunk loop runs. -/
def writePendingMessagesCode (maxPending : Nat)
    (pending : List SerializedMessageM) : Except String Nat :=
  if pending.isEmpty then Except.ok 0
  else processGroupsCode (ceilDiv4 maxPending) (groupbyType pending) 0

/-- A concrete serialized message in the buffer. -/
def smA : SerializedMessageM :=
  { id := "id-1", stream_name := "acct-1", type := "Deposit",
    data := [], metadata := [], expected_version := none }

/-- C1 (code bug): with the default capacity 128, flushing a buffer that
holds one message raises (`idx, bundle = chunk` cannot unpack the
one-message chunk) instead of returning the committed count 1; no input
with a non-empty buffer can flush successfully, because every chunk is a
tuple of messages, never an (index, chunk) pair. -/
theorem c1_flush_crashes :
    writePendingMessagesCode 128 [smA] =
        Except.error "ValueError: cannot unpack partition into idx, bundle"
      ∧ writePendingMessagesCode 128 [] = Except.ok 0 := by
  constructor
  · simp [writePendingMessagesCode, groupbyType, firstSeen, partitionAll,
      processGroupsCode, processChunksCode, unpack2, ceilDiv4, smA]
  · rfl


/-! ## The failure policy of the flush (claim C2)

The claim presumes a bundle transaction can fail partway through a flush.
In the source as written this situation is unreachable: the loop head
raises (claim C1) for every non-empty buffer before any connection is
acquired or any transaction opened, so no bundle ever commits, fails or
rolls back, and no count of committed records is ever reported. -/

/-- A second buffered message of the same type, the one whose write the
claim imagines failing. -/
def smBad : SerializedMessageM :=
  { id := "bad", stream_name := "acct-1", type := "Deposit",
    data := [], metadata := [], expected_version := none }

theorem processChunksCode_cons_err (c : List SerializedMessageM)
    (rest : List (List SerializedMessageM)) (total : Nat) :
    ∃ e, processChunksCode (c :: rest) total = Except.error e := by
  cases hu : unpack2 c with
  | error e => exact ⟨e, by simp [processChunksCode, hu]⟩
  | ok p =>
      exact ⟨"TypeError: not all arguments converted during string formatting",
        by simp [processChunksCode, hu]⟩

theorem writePendingMessagesCode_nonempty_err (maxPending : Nat)
    (p : SerializedMessageM) (ps : List SerializedMessageM) :
    ∃ e, writePendingMessagesCode maxPending (p :: ps) = Except.error e := by
  have hfc : (p :: ps).filter (fun m => m.type == p.type) =
      p :: ps.filter (fun m => m.type == p.type) := by
    simp [List.filter_cons]
  have hgb : groupbyType (p :: ps) =
      (p.type, p :: ps.filter (fun m => m.type == p.type)) ::
        (firstSeen ((ps.map (fun m => m.type)).filter
            (fun x => !(x == p.type)))).map
          (fun k => (k, (p :: ps).filter (fun m => m.type == k))) := by
    rw [groupbyType, List.map_cons, firstSeen, List.map_cons, hfc]
  set n := ceilDiv4 maxPending
  set items := p :: ps.filter (fun m => m.type == p.type) with hitems
  have hpart : partitionAll n items =
      items.take (max 1 n) :: partitionAll n (items.drop (max 1 n)) := by
    rw [hitems, partitionAll]
  obtain ⟨e, he⟩ := processChunksCode_cons_err (items.take (max 1 n))
    (partitionAll n (items.drop (max 1 n))) 0
  refine ⟨e, ?_⟩
  rw [show writePendingMessagesCode maxPending (p :: ps) =
      processGroupsCode n (groupbyType (p :: ps)) 0 from by
    simp [writePendingMessagesCode]]
  rw [hgb, processGroupsCode, hpart, he]

/-- C2 (code bug): the claimed failure policy cannot be exhibited by the
code.  For every non-empty buffer the flush raises at the loop head
before any connection or transaction exists (same slip as C1), so no
bundle ever commits or rolls back and no committed count is ever reported
to the caller; flushing only succeeds on the empty buffer.  Concretely:
with capacity 4 the two same-type messages form one-message chunks and
the unpack raises ValueError; with capacity 8 they form one two-message
chunk, the unpack succeeds, and the log-label interpolation raises
TypeError with the first message as format argument — either way the
error surfaces before the first write of any bundle. -/
theorem c2_flush_fails_before_any_commit :
    (∀ (maxPending : Nat) (pending : List SerializedMessageM),
        (pending = []
            ∧ writePendingMessagesCode maxPending pending = Except.ok 0)
          ∨ ∃ e, writePendingMessagesCode maxPending pending
              = Except.error e)
      ∧ writePendingMessagesCode 4 [smA, smBad] =
          Except.error "ValueError: cannot unpack partition into idx, bundle"
      ∧ writePendingMessagesCode 8 [smA, smBad] =
          Except.error
            "TypeError: not all arguments converted during string formatting" := by
  refine ⟨?_, ?_, ?_⟩
  · intro maxPending pending
    cases pending with
    | nil => exact Or.inl ⟨rfl, rfl⟩
    | cons p ps =>
        exact Or.inr (writePendingMessagesCode_nonempty_err maxPending p ps)
  · simp [writePendingMessagesCode, groupbyType, firstSeen, partitionAll,
      processGroupsCode, processChunksCode, unpack2, ceilDiv4, smA, smBad]
  · simp [writePendingMessagesCode, groupbyType, firstSeen, partitionAll,
      processGroupsCode, processChunksCode, unpack2, ceilDiv4, smA, smBad]
